import Mathlib

/-!
Shallow embedding of the Aquanex-Server streaming core
(`src/app/llm_service.py`, `src/app/utils.py`, `src/app/auth.py`).

The asynchronous generator `stream_openai` is modelled as a deterministic
function of (a) the provider attempt (which tokens the upstream call put on
the queue and which terminal error it recorded) and (b) a schedule of loop
events: each iteration of the consumer loop either receives the next queued
token (`LoopEvent.arrive`) or times out after 0.2s (`LoopEvent.tick`).
Wall-clock instants are natural numbers (milliseconds); the flush interval
0.05s is 50 in those units.  A complete, uncancelled run of the generator
corresponds to a schedule that drains the queue (the loop exits at a `tick`
once `done` is set and the queue is empty; the trailing leftover flush is
applied after the schedule ends).
-/

namespace Aquanex

/-- Concatenation of a list of strings, the embedding of Python
`"".join(parts)` (same result, computed right-to-left). -/
def pyJoin : List String → String
  | [] => ""
  | s :: rest => s ++ pyJoin rest

/-- Characters on which Python `str.split()` (no separator) splits:
the Unicode whitespace set used by `str.isspace`. -/
def pyIsSpace (c : Char) : Bool :=
  ([0x09, 0x0a, 0x0b, 0x0c, 0x0d, 0x1c, 0x1d, 0x1e, 0x1f, 0x20, 0x85, 0xa0,
    0x1680, 0x2000, 0x2001, 0x2002, 0x2003, 0x2004, 0x2005, 0x2006, 0x2007,
    0x2008, 0x2009, 0x200a, 0x2028, 0x2029, 0x202f, 0x205f, 0x3000] : List Nat).contains c.toNat

/-- Maximal non-empty runs of non-whitespace characters, accumulator
style; `acc` holds the current word reversed. -/
def pySplitAux : List Char → List Char → List (List Char)
  | [], acc => if acc.isEmpty then [] else [acc.reverse]
  | c :: cs, acc =>
    if pyIsSpace c then
      if acc.isEmpty then pySplitAux cs [] else acc.reverse :: pySplitAux cs []
    else
      pySplitAux cs (c :: acc)

/-- Embedding of Python `s.split()` (no separator): the maximal non-empty
runs of non-whitespace characters, in order. -/
def pySplit (s : String) : List String :=
  (pySplitAux s.data []).map (fun cs => String.mk cs)

/-- The constant `FALLBACK_TEXT` of `src/app/utils.py` (lines 70-75),
reproduced code point for code point (the file contains mojibake sequences
such as `ðŸŸ`; they are kept verbatim). -/
def FALLBACK_TEXT : String :=
  "<!--FALLBACK-->ðŸŸ Oops! Just a heads-up: **SORRY**\nI'm trained specifically in **aquaculture, agriculture, fish, and poultry** topics.\nI was developed by **Aquanex Systems**, so that's my specialty!\nPlease ask me something in those areas â€” I'd love to help! ðŸ™"

/-- Embedding of `stream_fallback` (`src/app/llm_service.py` lines 203-212):
it yields `word + " "` for each `word` in `FALLBACK_TEXT.split()`.  The
15ms sleep between emissions carries no content and is dropped. -/
def stream_fallback : List String :=
  (pySplit FALLBACK_TEXT).map (fun w => w ++ " ")

/-- Words joined by single spaces (the whitespace-normalized form of a
text; used to state what the fallback replay actually reconstructs). -/
def joinWithSpaces : List String → String
  | [] => ""
  | [w] => w
  | w :: rest => w ++ " " ++ joinWithSpaces rest

/-- A chat message as received by the service: a role string and content. -/
structure ChatMessage where
  role : String
  content : String
deriving DecidableEq

/-- LangChain message objects produced by `_lc_messages`. -/
inductive LCMessage
  | system (content : String)
  | human (content : String)
  | ai (content : String)
deriving DecidableEq

/-- Embedding of Python `str.lower()`: lower-case each character (the
roles compared against are ASCII, where `Char.toLower` agrees with
Python). -/
def pyLower (s : String) : String :=
  String.mk (s.data.map Char.toLower)

/-- Embedding of `_lc_messages` (`src/app/llm_service.py` lines 23-36):
lower-case the role, map system/user/assistant, otherwise raise
`ValueError("Unsupported role: ...")` (modelled as `Except.error`). -/
def lc_messages : List ChatMessage → Except String (List LCMessage)
  | [] => Except.ok []
  | m :: rest =>
    let role := pyLower m.role
    if role = "system" then
      (lc_messages rest).map (fun l => LCMessage.system m.content :: l)
    else if role = "user" then
      (lc_messages rest).map (fun l => LCMessage.human m.content :: l)
    else if role = "assistant" then
      (lc_messages rest).map (fun l => LCMessage.ai m.content :: l)
    else
      Except.error ("Unsupported role: " ++ role)

/-- Warning pushed on the queue in the `RateLimitError` branch of
`run_call` (line 97). Its length is 51 characters. -/
def RATE_LIMIT_WARNING : String :=
  "⚠️ OpenAI quota exceeded. Switching to fallback...\n"

/-- Warning pushed on the queue in the `asyncio.TimeoutError` branch of
`run_call` (line 105). Its length is 44 characters. -/
def TIMEOUT_WARNING : String :=
  "⚠️ LLM request timed out. Using fallback...\n"

/-- Warning pushed on the queue in the generic `Exception` branch of
`run_call` (line 113). Its length is 56 characters. -/
def UNEXPECTED_WARNING : String :=
  "⚠️ Unexpected error with LLM backend. Using fallback...\n"

/-- What the consumer later checks about `error_marker`: only
`isinstance(error_marker, PermissionError)` matters (line 159). -/
inductive ErrorMarker
  | permissionError
  | otherError
deriving DecidableEq

/-- Net effect of the background task `run_call`: everything it put on the
queue, in order, and the final value of `error_marker`. -/
structure CallResult where
  queued : List String
  marker : Option ErrorMarker
deriving DecidableEq

/-- Terminal behavior of the one `llm.ainvoke` call made by `run_call`:
the tokens its callbacks delivered before it finished, and how it ended
(normal completion, `AuthenticationError`, `RateLimitError`,
`asyncio.TimeoutError`, or any other exception). -/
inductive ProviderAttempt
  | success (tokens : List String)
  | authError (tokens : List String)
  | rateLimited (tokens : List String)
  | timedOut (tokens : List String)
  | unexpectedError (tokens : List String)
deriving DecidableEq

/-- Embedding of `run_call` (`src/app/llm_service.py` lines 79-116).
`_lc_messages(messages)` is evaluated inside the `try:` block, so an
unsupported role raises `ValueError` there and is caught by the generic
`except Exception` branch: warning pushed, `error_marker` set, `done` set.
Otherwise each terminal condition of the provider attempt maps to its
`except` branch: `AuthenticationError` sets a `PermissionError` marker and
pushes nothing, while rate-limit / timeout / unexpected push their warning
after the already-delivered tokens and set a non-permission marker. -/
def run_call (messages : List ChatMessage) (attempt : ProviderAttempt) : CallResult :=
  match lc_messages messages with
  | Except.error _ => { queued := [UNEXPECTED_WARNING], marker := some ErrorMarker.otherError }
  | Except.ok _ =>
    match attempt with
    | ProviderAttempt.success toks => { queued := toks, marker := none }
    | ProviderAttempt.authError toks => { queued := toks, marker := some ErrorMarker.permissionError }
    | ProviderAttempt.rateLimited toks =>
      { queued := toks ++ [RATE_LIMIT_WARNING], marker := some ErrorMarker.otherError }
    | ProviderAttempt.timedOut toks =>
      { queued := toks ++ [TIMEOUT_WARNING], marker := some ErrorMarker.otherError }
    | ProviderAttempt.unexpectedError toks =>
      { queued := toks ++ [UNEXPECTED_WARNING], marker := some ErrorMarker.otherError }

/-- Configuration read at module import (`src/app/llm_service.py` lines
16-17): `_TOKEN_BUFFER_SIZE` (default 48 characters) and
`_TOKEN_FLUSH_INTERVAL` (default 0.05s, modelled as 50 ms). -/
structure StreamConfig where
  bufferSize : Nat
  flushInterval : Nat
deriving DecidableEq

/-- The default configuration: 48-character buffer, 50 ms flush interval. -/
def defaultConfig : StreamConfig := { bufferSize := 48, flushInterval := 50 }

/-- State of the consumer loop: tokens still on the queue, the coalescing
`token_buffer`, and `last_flush`. -/
structure LoopState where
  queue : List String
  buffer : List String
  lastFlush : Nat
deriving DecidableEq

/-- One iteration of the consumer loop: either `queue.get()` returned
within 0.2s (`arrive`, at wall-clock instant `now`) or it timed out
(`tick`). -/
inductive LoopEvent
  | arrive (now : Nat)
  | tick (now : Nat)
deriving DecidableEq

/-- Embedding of `sum(len(t) for t in token_buffer)` (line 128); Python
`len` on `str` counts code points, as `String.length` does. -/
def bufferLen (buffer : List String) : Nat :=
  (buffer.map String.length).sum

/-- One iteration of the `while True` loop (`src/app/llm_service.py` lines
122-149).  On `arrive`: append the token; if the buffered length reached
`_TOKEN_BUFFER_SIZE`, emit the joined buffer and record `last_flush = now`.
On `tick` (the `asyncio.TimeoutError` branch): if the buffer is non-empty
(as a Python list) and at least the flush interval elapsed since
`last_flush`, emit the joined buffer.  An `arrive` with an empty queue
cannot occur in a real schedule (`queue.get` would block) and is a no-op. -/
def stepEvent (cfg : StreamConfig) (st : LoopState) : LoopEvent → LoopState × List String
  | LoopEvent.arrive now =>
    match st.queue with
    | [] => (st, [])
    | t :: rest =>
      let buf := st.buffer ++ [t]
      if cfg.bufferSize ≤ bufferLen buf then
        ({ queue := rest, buffer := [], lastFlush := now }, [pyJoin buf])
      else
        ({ queue := rest, buffer := buf, lastFlush := st.lastFlush }, [])
  | LoopEvent.tick now =>
    if st.buffer ≠ [] ∧ cfg.flushInterval ≤ now - st.lastFlush then
      ({ queue := st.queue, buffer := [], lastFlush := now }, [pyJoin st.buffer])
    else
      (st, [])

/-- Run the consumer loop over a schedule of events, collecting the
emitted chunks in order. -/
def runLoop (cfg : StreamConfig) (st : LoopState) : List LoopEvent → LoopState × List String
  | [] => (st, [])
  | e :: es =>
    ((runLoop cfg (stepEvent cfg st e).fst es).fst,
     (stepEvent cfg st e).snd ++ (runLoop cfg (stepEvent cfg st e).fst es).snd)

/-- The flush of leftover tokens after the loop exits
(`src/app/llm_service.py` lines 152-154): `if token_buffer: yield
"".join(token_buffer)`. -/
def leftoverFlush (st : LoopState) : List String :=
  if st.buffer ≠ [] then [pyJoin st.buffer] else []

/-- How one call of the generator `stream_openai` ends for its consumer:
either the stream of chunks completes normally, or a `PermissionError` is
raised after the listed chunks were already yielded. -/
inductive StreamResult
  | ok (chunks : List String)
  | permissionDenied (chunks : List String)
deriving DecidableEq

/-- The chunks actually yielded to the caller, in order, in either case. -/
def resultChunks : StreamResult → List String
  | StreamResult.ok chunks => chunks
  | StreamResult.permissionDenied chunks => chunks

/-- Loop state at generator start: full queue, empty buffer, `last_flush`
initialised to the current loop time (line 57). -/
def initState (queued : List String) (startTime : Nat) : LoopState :=
  { queue := queued, buffer := [], lastFlush := startTime }

/-- The chunks the consumer loop emits over a schedule: the in-loop
flushes followed by the leftover flush of lines 152-154. -/
def streamChunks (cfg : StreamConfig) (messages : List ChatMessage)
    (attempt : ProviderAttempt) (startTime : Nat) (events : List LoopEvent) : List String :=
  (runLoop cfg (initState (run_call messages attempt).queued startTime) events).snd
    ++ leftoverFlush (runLoop cfg (initState (run_call messages attempt).queued startTime) events).fst

/-- Embedding of a complete, uncancelled run of the generator
`stream_openai` (`src/app/llm_service.py` lines 43-197): run the consumer
loop over the schedule, flush leftovers, then (lines 156-171) if
`error_marker` is a `PermissionError` re-raise it, if it is any other
error continue the stream with `stream_fallback`, and otherwise finish. -/
def stream_openai (cfg : StreamConfig) (messages : List ChatMessage)
    (attempt : ProviderAttempt) (startTime : Nat) (events : List LoopEvent) : StreamResult :=
  match (run_call messages attempt).marker with
  | none => StreamResult.ok (streamChunks cfg messages attempt startTime events)
  | some ErrorMarker.permissionError =>
    StreamResult.permissionDenied (streamChunks cfg messages attempt startTime events)
  | some ErrorMarker.otherError =>
    StreamResult.ok (streamChunks cfg messages attempt startTime events ++ stream_fallback)

/-- A schedule is complete for a run when it consumed the whole queue
(the loop only breaks once `done` is set and `queue.empty()`). -/
def drains (cfg : StreamConfig) (messages : List ChatMessage) (attempt : ProviderAttempt)
    (startTime : Nat) (events : List LoopEvent) : Prop :=
  (runLoop cfg (initState (run_call messages attempt).queued startTime) events).fst.queue = []

instance (cfg : StreamConfig) (messages : List ChatMessage) (attempt : ProviderAttempt)
    (startTime : Nat) (events : List LoopEvent) :
    Decidable (drains cfg messages attempt startTime events) := by
  unfold drains; infer_instance

/-! Retry policy on establishing the call: the decorator
`@retry(stop=stop_after_attempt(3), wait=wait_exponential(multiplier=1, min=1, max=8))`
on `stream_openai` (`src/app/llm_service.py` line 42). -/

/-- Modelled from the tenacity library semantics of
`wait_exponential(multiplier=multiplier, min=lo, max=hi)`: the sleep after
failed attempt number `n` is `multiplier * 2^(n-1)` clamped into
`[lo, hi]`. -/
def wait_exponential (multiplier lo hi n : Nat) : Nat :=
  max lo (min (multiplier * 2 ^ (n - 1)) hi)

/-- Modelled from the tenacity library semantics of
`@retry(stop=stop_after_attempt(3), wait=wait_exponential(multiplier=1, min=1, max=8))`:
run attempt number `n` with `remaining` attempts still allowed (the
current one included); on success stop, on failure either give up (when
this was the last allowed attempt) or sleep the exponential backoff for
attempt `n` and retry.  Returns whether some attempt succeeded together
with the list of sleeps performed, in order. -/
def retryRun (attemptOk : Nat → Bool) : Nat → Nat → Bool × List Nat
  | _, 0 => (false, [])
  | n, 1 => (attemptOk n, [])
  | n, Nat.succ (Nat.succ remaining) =>
    if attemptOk n then (true, [])
    else
      ((retryRun attemptOk (n + 1) (Nat.succ remaining)).fst,
        wait_exponential 1 1 8 n :: (retryRun attemptOk (n + 1) (Nat.succ remaining)).snd)

/-- How call establishment ends for the caller of `stream_openai`. -/
inductive EstablishResult
  | established
  | gaveUpUnexpectedError
deriving DecidableEq

/-- The decorated call: at most 3 attempts (`stop_after_attempt(3)`),
starting at attempt number 1.  Modelled from the spec: the caller that
treats the failure remaining after the final attempt as `UnexpectedError`
is not under `src/`; per the spec it reclassifies an exhausted retry as
UnexpectedError. -/
def establish (attemptOk : Nat → Bool) : EstablishResult × List Nat :=
  ((if (retryRun attemptOk 1 3).fst then EstablishResult.established
    else EstablishResult.gaveUpUnexpectedError),
   (retryRun attemptOk 1 3).snd)

/-! Embedding of `src/app/auth.py`. -/

/-- The FastAPI `HTTPException` raised by the auth helpers: status code
and detail message. -/
structure HTTPException where
  status_code : Nat
  detail : String
deriving DecidableEq

/-- The configuration the auth helpers read: `settings.API_AUTH_TOKEN`.
The empty string models an unset or empty token (both are falsy for the
`if settings.API_AUTH_TOKEN:` test on line 6). -/
structure Settings where
  API_AUTH_TOKEN : String
deriving DecidableEq

/-- Embedding of the list built in `validate_token` lines 5-7: the
configured token when it is truthy, else nothing. -/
def valid_tokens (s : Settings) : List String :=
  if s.API_AUTH_TOKEN ≠ "" then [s.API_AUTH_TOKEN] else []

/-- Embedding of `validate_token` (`src/app/auth.py` lines 4-13): raise
HTTP 401 when the presented token is not in `valid_tokens`. -/
def validate_token (s : Settings) (token : String) : Except HTTPException Unit :=
  if token ∉ valid_tokens s then
    Except.error { status_code := 401, detail := "Unauthorized: Invalid or missing token" }
  else
    Except.ok ()

/-- Embedding of Python `s.startswith(pre)`. -/
def pyStartsWith (s pre : String) : Bool :=
  pre.data.isPrefixOf s.data

/-- Walk the characters up to the first space; `acc` holds the part seen
so far, reversed. -/
def pySplitOnceSpaceAux : List Char → List Char → List String
  | [], acc => [String.mk acc.reverse]
  | c :: cs, acc =>
    if c = ' ' then [String.mk acc.reverse, String.mk cs]
    else pySplitOnceSpaceAux cs (c :: acc)

/-- Embedding of Python `s.split(" ", 1)`: split at the first space, if
any; the remainder after it is kept verbatim. -/
def pySplitOnceSpace (s : String) : List String :=
  pySplitOnceSpaceAux s.data []

/-- The token taken on line 23, `auth_header.split(" ", 1)[1]`: the part
after the first space.  The `[1]` index is reachable only under the
`startswith("Bearer ")` guard, which guarantees a space; without one this
model returns the empty string. -/
def bearerToken (h : String) : String :=
  match pySplitOnceSpace h with
  | [_, tok] => tok
  | _ => ""

/-- Embedding of `verify_header_auth` (`src/app/auth.py` lines 15-25):
the `Authorization` header is modelled as `Option String` (`none` when
absent); a missing, empty (falsy) or non-Bearer header raises 401,
otherwise the token after the first space is validated and returned. -/
def verify_header_auth (s : Settings) (authHeader : Option String) : Except HTTPException String :=
  match authHeader with
  | none => Except.error { status_code := 401, detail := "Unauthorized: Missing Bearer token" }
  | some h =>
    if h = "" ∨ ¬ pyStartsWith h ("Bearer ") then
      Except.error { status_code := 401, detail := "Unauthorized: Missing Bearer token" }
    else
      match validate_token s (bearerToken h) with
      | Except.error e => Except.error e
      | Except.ok _ => Except.ok (bearerToken h)

/-! Helper lemmas. -/

theorem pyJoin_append (l1 l2 : List String) :
    pyJoin (l1 ++ l2) = pyJoin l1 ++ pyJoin l2 := by
  induction l1 with
  | nil => simp [pyJoin, String.empty_append]
  | cons x xs ih => simp [pyJoin, ih, String.append_assoc]

theorem str_eq_empty_of_length_zero (s : String) (h : s.length = 0) : s = "" := by
  cases s with
  | mk data =>
    cases data with
    | nil => rfl
    | cons c cs => simp [String.length] at h

theorem append_ne_empty_left (s t : String) (h : s ≠ "") : s ++ t ≠ "" := by
  intro he
  apply h
  apply str_eq_empty_of_length_zero
  have hlen := congrArg String.length he
  rw [String.length_append] at hlen
  have h0 : String.length "" = 0 := rfl
  omega

theorem pyJoin_ne_empty (l : List String) (hne : l ≠ []) (hall : ∀ x ∈ l, x ≠ "") :
    pyJoin l ≠ "" := by
  cases l with
  | nil => exact absurd rfl hne
  | cons x xs =>
    show x ++ pyJoin xs ≠ ""
    exact append_ne_empty_left x (pyJoin xs) (hall x (by simp))

theorem pyJoin_leftoverFlush (st : LoopState) :
    pyJoin (leftoverFlush st) = pyJoin st.buffer := by
  unfold leftoverFlush
  by_cases h : st.buffer ≠ []
  · simp [h, pyJoin, String.append_empty]
  · simp only [not_not] at h
    simp [h, pyJoin]

theorem append_eq_singleton_cases {α : Type _} (l1 l2 : List α) (w : α)
    (h : l1 ++ l2 = [w]) : (l1 = [] ∧ l2 = [w]) ∨ (l1 = [w] ∧ l2 = []) := by
  cases l1 with
  | nil => exact Or.inl ⟨rfl, by simpa using h⟩
  | cons x xs =>
    simp only [List.cons_append, List.cons.injEq] at h
    obtain ⟨hx, hrest⟩ := h
    rcases List.append_eq_nil.mp hrest with ⟨hxs, hl2⟩
    exact Or.inr ⟨by rw [hx, hxs], hl2⟩

theorem stepEvent_conservation (cfg : StreamConfig) (st : LoopState) (e : LoopEvent) :
    pyJoin (stepEvent cfg st e).snd
        ++ (pyJoin (stepEvent cfg st e).fst.buffer ++ pyJoin (stepEvent cfg st e).fst.queue)
      = pyJoin st.buffer ++ pyJoin st.queue := by
  obtain ⟨q, b, lf⟩ := st
  cases e with
  | arrive now =>
    cases q with
    | nil => simp [stepEvent, pyJoin, String.empty_append]
    | cons t rest =>
      by_cases hflush : cfg.bufferSize ≤ bufferLen (b ++ [t])
      · simp [stepEvent, hflush, pyJoin, pyJoin_append, String.append_assoc,
          String.append_empty, String.empty_append]
      · simp [stepEvent, hflush, pyJoin, pyJoin_append, String.append_assoc,
          String.append_empty, String.empty_append]
  | tick now =>
    by_cases hcond : b ≠ [] ∧ cfg.flushInterval ≤ now - lf
    · simp [stepEvent, hcond, pyJoin, String.append_assoc, String.append_empty,
        String.empty_append]
    · simp [stepEvent, hcond, pyJoin, String.empty_append]

theorem runLoop_conservation (cfg : StreamConfig) (events : List LoopEvent) :
    ∀ st : LoopState,
      pyJoin (runLoop cfg st events).snd
          ++ (pyJoin (runLoop cfg st events).fst.buffer ++ pyJoin (runLoop cfg st events).fst.queue)
        = pyJoin st.buffer ++ pyJoin st.queue := by
  induction events with
  | nil => intro st; simp [runLoop, pyJoin, String.empty_append]
  | cons e es ih =>
    intro st
    have hstep := stepEvent_conservation cfg st e
    have hrest := ih (stepEvent cfg st e).fst
    simp only [runLoop]
    rw [pyJoin_append, String.append_assoc, hrest, hstep]

theorem runLoop_stays_empty (cfg : StreamConfig) (events : List LoopEvent) :
    ∀ lf : Nat,
      runLoop cfg { queue := [], buffer := [], lastFlush := lf } events
        = ({ queue := [], buffer := [], lastFlush := lf }, []) := by
  induction events with
  | nil => intro lf; simp [runLoop]
  | cons e es ih =>
    intro lf
    have hstep : stepEvent cfg { queue := [], buffer := [], lastFlush := lf } e
        = ({ queue := [], buffer := [], lastFlush := lf }, []) := by
      cases e with
      | arrive now => simp [stepEvent]
      | tick now => simp [stepEvent]
    simp only [runLoop, hstep]
    simp [ih lf]

theorem runLoop_single (cfg : StreamConfig) (events : List LoopEvent) :
    ∀ (st : LoopState) (w : String), st.buffer ++ st.queue = [w] →
      (runLoop cfg st events).snd
          ++ ((runLoop cfg st events).fst.buffer ++ (runLoop cfg st events).fst.queue)
        = [w] := by
  induction events with
  | nil =>
    intro st w h
    simpa [runLoop] using h
  | cons e es ih =>
    intro st w h
    obtain ⟨q, b, lf⟩ := st
    rcases append_eq_singleton_cases b q w h with ⟨hb, hq⟩ | ⟨hb, hq⟩
    · subst hb; subst hq
      cases e with
      | arrive now =>
        by_cases hflush : cfg.bufferSize ≤ bufferLen [w]
        · have hstep : stepEvent cfg { queue := [w], buffer := [], lastFlush := lf }
              (LoopEvent.arrive now)
              = ({ queue := [], buffer := [], lastFlush := now }, [pyJoin [w]]) := by
            simp [stepEvent, hflush]
          simp only [runLoop, hstep, runLoop_stays_empty cfg es now]
          simp [pyJoin, String.append_empty]
        · have hstep : stepEvent cfg { queue := [w], buffer := [], lastFlush := lf }
              (LoopEvent.arrive now)
              = ({ queue := [], buffer := [w], lastFlush := lf }, []) := by
            simp [stepEvent, hflush]
          simp only [runLoop, hstep]
          simpa using ih { queue := [], buffer := [w], lastFlush := lf } w (by simp)
      | tick now =>
        have hstep : stepEvent cfg { queue := [w], buffer := [], lastFlush := lf }
            (LoopEvent.tick now)
            = ({ queue := [w], buffer := [], lastFlush := lf }, []) := by
          simp [stepEvent]
        simp only [runLoop, hstep]
        simpa using ih { queue := [w], buffer := [], lastFlush := lf } w (by simp)
    · subst hb; subst hq
      cases e with
      | arrive now =>
        have hstep : stepEvent cfg { queue := [], buffer := [w], lastFlush := lf }
            (LoopEvent.arrive now)
            = ({ queue := [], buffer := [w], lastFlush := lf }, []) := by
          simp [stepEvent]
        simp only [runLoop, hstep]
        simpa using ih { queue := [], buffer := [w], lastFlush := lf } w (by simp)
      | tick now =>
        by_cases ht : cfg.flushInterval ≤ now - lf
        · have hstep : stepEvent cfg { queue := [], buffer := [w], lastFlush := lf }
              (LoopEvent.tick now)
              = ({ queue := [], buffer := [], lastFlush := now }, [pyJoin [w]]) := by
            simp [stepEvent, ht]
          simp only [runLoop, hstep, runLoop_stays_empty cfg es now]
          simp [pyJoin, String.append_empty]
        · have hstep : stepEvent cfg { queue := [], buffer := [w], lastFlush := lf }
              (LoopEvent.tick now)
              = ({ queue := [], buffer := [w], lastFlush := lf }, []) := by
            simp [stepEvent, ht]
          simp only [runLoop, hstep]
          simpa using ih { queue := [], buffer := [w], lastFlush := lf } w (by simp)

theorem chunks_single (cfg : StreamConfig) (events : List LoopEvent) (st : LoopState)
    (w : String) (h : st.buffer ++ st.queue = [w])
    (hdrain : (runLoop cfg st events).fst.queue = []) :
    (runLoop cfg st events).snd ++ leftoverFlush (runLoop cfg st events).fst = [w] := by
  have hs := runLoop_single cfg events st w h
  rw [hdrain] at hs
  simp only [List.append_nil] at hs
  rcases append_eq_singleton_cases _ _ _ hs with ⟨hout, hbuf⟩ | ⟨hout, hbuf⟩
  · rw [hout]
    simp [leftoverFlush, hbuf, pyJoin, String.append_empty]
  · rw [hout]
    simp [leftoverFlush, hbuf]

theorem stepEvent_buffer_lt (cfg : StreamConfig) (hpos : 0 < cfg.bufferSize)
    (st : LoopState) (e : LoopEvent) (hlt : bufferLen st.buffer < cfg.bufferSize) :
    bufferLen (stepEvent cfg st e).fst.buffer < cfg.bufferSize := by
  obtain ⟨q, b, lf⟩ := st
  cases e with
  | arrive now =>
    cases q with
    | nil => simpa [stepEvent] using hlt
    | cons t rest =>
      by_cases hflush : cfg.bufferSize ≤ bufferLen (b ++ [t])
      · simp only [stepEvent, if_pos hflush]
        simpa [bufferLen] using hpos
      · simp only [stepEvent, if_neg hflush]
        exact Nat.lt_of_not_le hflush
  | tick now =>
    by_cases hcond : b ≠ [] ∧ cfg.flushInterval ≤ now - lf
    · simp only [stepEvent, if_pos hcond]
      simpa [bufferLen] using hpos
    · simpa [stepEvent, hcond] using hlt

theorem runLoop_buffer_lt (cfg : StreamConfig) (hpos : 0 < cfg.bufferSize)
    (events : List LoopEvent) :
    ∀ st : LoopState, bufferLen st.buffer < cfg.bufferSize →
      bufferLen (runLoop cfg st events).fst.buffer < cfg.bufferSize := by
  induction events with
  | nil => intro st hlt; simpa [runLoop] using hlt
  | cons e es ih =>
    intro st hlt
    simp only [runLoop]
    exact ih (stepEvent cfg st e).fst (stepEvent_buffer_lt cfg hpos st e hlt)

theorem stepEvent_nonempty (cfg : StreamConfig) (st : LoopState) (e : LoopEvent)
    (hbuf : ∀ x ∈ st.buffer, x ≠ "") (hq : ∀ x ∈ st.queue, x ≠ "") :
    (∀ c ∈ (stepEvent cfg st e).snd, c ≠ "")
    ∧ (∀ x ∈ (stepEvent cfg st e).fst.buffer, x ≠ "")
    ∧ (∀ x ∈ (stepEvent cfg st e).fst.queue, x ≠ "") := by
  obtain ⟨q, b, lf⟩ := st
  cases e with
  | arrive now =>
    cases q with
    | nil => exact ⟨by simp [stepEvent], by simpa [stepEvent] using hbuf, by simp [stepEvent]⟩
    | cons t rest =>
      have hbt : ∀ x ∈ b ++ [t], x ≠ "" := by
        intro x hx
        rcases List.mem_append.mp hx with hxb | hxt
        · exact hbuf x hxb
        · rw [List.mem_singleton.mp hxt]
          exact hq t (by simp)
      have hrest : ∀ x ∈ rest, x ≠ "" := fun x hx => hq x (by simp [hx])
      by_cases hflush : cfg.bufferSize ≤ bufferLen (b ++ [t])
      · refine ⟨?_, by simp [stepEvent, hflush], by simpa [stepEvent, hflush] using hrest⟩
        intro c hc
        simp only [stepEvent, if_pos hflush, List.mem_singleton] at hc
        rw [hc]
        exact pyJoin_ne_empty (b ++ [t]) (by simp) hbt
      · exact ⟨by simp [stepEvent, hflush], by simpa [stepEvent, hflush] using hbt,
          by simpa [stepEvent, hflush] using hrest⟩
  | tick now =>
    by_cases hcond : b ≠ [] ∧ cfg.flushInterval ≤ now - lf
    · refine ⟨?_, by simp [stepEvent, hcond], by simpa [stepEvent, hcond] using hq⟩
      intro c hc
      simp only [stepEvent, if_pos hcond, List.mem_singleton] at hc
      rw [hc]
      exact pyJoin_ne_empty b hcond.1 hbuf
    · exact ⟨by simp [stepEvent, hcond], by simpa [stepEvent, hcond] using hbuf,
        by simpa [stepEvent, hcond] using hq⟩

theorem runLoop_nonempty (cfg : StreamConfig) (events : List LoopEvent) :
    ∀ st : LoopState, (∀ x ∈ st.buffer, x ≠ "") → (∀ x ∈ st.queue, x ≠ "") →
      (∀ c ∈ (runLoop cfg st events).snd, c ≠ "")
      ∧ (∀ x ∈ (runLoop cfg st events).fst.buffer, x ≠ "") := by
  induction events with
  | nil =>
    intro st hbuf hq
    exact ⟨by simp [runLoop], by simpa [runLoop] using hbuf⟩
  | cons e es ih =>
    intro st hbuf hq
    obtain ⟨hc, hb, hq2⟩ := stepEvent_nonempty cfg st e hbuf hq
    obtain ⟨ihc, ihb⟩ := ih (stepEvent cfg st e).fst hb hq2
    refine ⟨?_, by simpa [runLoop] using ihb⟩
    intro c hcmem
    simp only [runLoop, List.mem_append] at hcmem
    rcases hcmem with hcm | hcm
    · exact hc c hcm
    · exact ihc c hcm

/-! Claim theorems. -/

/-- C1: for every valid message sequence and a provider attempt that ends
in Success, over every schedule that drains the queue, the concatenation
of all chunks `stream_openai` yields equals the concatenation, in arrival
order, of the tokens the provider emitted: no token content is lost,
duplicated or reordered, and chunk boundaries only batch content. -/
theorem C1_success_stream_concat (cfg : StreamConfig) (messages : List ChatMessage)
    (tokens : List String) (startTime : Nat) (events : List LoopEvent)
    (hvalid : ∃ l, lc_messages messages = Except.ok l)
    (hdrain : drains cfg messages (ProviderAttempt.success tokens) startTime events) :
    ∃ chunks, stream_openai cfg messages (ProviderAttempt.success tokens) startTime events
        = StreamResult.ok chunks ∧ pyJoin chunks = pyJoin tokens := by
  obtain ⟨l, hl⟩ := hvalid
  have hrc : run_call messages (ProviderAttempt.success tokens)
      = { queued := tokens, marker := none } := by
    simp [run_call, hl]
  refine ⟨(runLoop cfg (initState tokens startTime) events).snd
      ++ leftoverFlush (runLoop cfg (initState tokens startTime) events).fst, ?_, ?_⟩
  · simp [stream_openai, streamChunks, hrc]
  · have hdrain2 : (runLoop cfg (initState tokens startTime) events).fst.queue = [] := by
      unfold drains at hdrain
      rw [hrc] at hdrain
      exact hdrain
    have hcons := runLoop_conservation cfg events (initState tokens startTime)
    rw [hdrain2] at hcons
    rw [pyJoin_append, pyJoin_leftoverFlush]
    simpa [initState, pyJoin, String.empty_append, String.append_empty] using hcons

/-- C1 witness: a concrete valid run with two tokens batched into one
chunk. -/
theorem C1_success_stream_concat_witness :
    ∃ chunks, stream_openai defaultConfig [{ role := "user", content := "hi" }]
        (ProviderAttempt.success ["hello", " world"]) 0
        [LoopEvent.arrive 1, LoopEvent.arrive 2, LoopEvent.tick 100]
      = StreamResult.ok chunks ∧ pyJoin chunks = pyJoin ["hello", " world"] :=
  C1_success_stream_concat defaultConfig [{ role := "user", content := "hi" }]
    ["hello", " world"] 0 [LoopEvent.arrive 1, LoopEvent.arrive 2, LoopEvent.tick 100]
    ⟨[LCMessage.human "hi"], rfl⟩ (by decide)

/-- C2: for every valid message sequence, when the provider attempt
terminates as RateLimited or TimedOut (the call raised before any token
was delivered), every draining schedule makes `stream_openai` complete
normally with exactly one warning chunk followed by the full fallback
replay, and no error is raised. -/
theorem C2_rate_limit_timeout_warning_then_fallback (cfg : StreamConfig)
    (messages : List ChatMessage) (startTime : Nat) (events : List LoopEvent)
    (hvalid : ∃ l, lc_messages messages = Except.ok l)
    (hdrainRL : drains cfg messages (ProviderAttempt.rateLimited []) startTime events)
    (hdrainTO : drains cfg messages (ProviderAttempt.timedOut []) startTime events) :
    stream_openai cfg messages (ProviderAttempt.rateLimited []) startTime events
      = StreamResult.ok (RATE_LIMIT_WARNING :: stream_fallback)
    ∧ stream_openai cfg messages (ProviderAttempt.timedOut []) startTime events
      = StreamResult.ok (TIMEOUT_WARNING :: stream_fallback) := by
  obtain ⟨l, hl⟩ := hvalid
  have hrc1 : run_call messages (ProviderAttempt.rateLimited [])
      = { queued := [RATE_LIMIT_WARNING], marker := some ErrorMarker.otherError } := by
    simp [run_call, hl]
  have hrc2 : run_call messages (ProviderAttempt.timedOut [])
      = { queued := [TIMEOUT_WARNING], marker := some ErrorMarker.otherError } := by
    simp [run_call, hl]
  constructor
  · have hdrain2 : (runLoop cfg (initState [RATE_LIMIT_WARNING] startTime) events).fst.queue
        = [] := by
      unfold drains at hdrainRL
      rw [hrc1] at hdrainRL
      exact hdrainRL
    have hchunks := chunks_single cfg events (initState [RATE_LIMIT_WARNING] startTime)
      RATE_LIMIT_WARNING (by simp [initState]) hdrain2
    simp [stream_openai, streamChunks, hrc1, hchunks]
  · have hdrain2 : (runLoop cfg (initState [TIMEOUT_WARNING] startTime) events).fst.queue
        = [] := by
      unfold drains at hdrainTO
      rw [hrc2] at hdrainTO
      exact hdrainTO
    have hchunks := chunks_single cfg events (initState [TIMEOUT_WARNING] startTime)
      TIMEOUT_WARNING (by simp [initState]) hdrain2
    simp [stream_openai, streamChunks, hrc2, hchunks]

/-- C2 witness: a concrete run for each of the two outcomes (the timeout
schedule flushes by leftover, the rate-limit one by buffer size). -/
theorem C2_rate_limit_timeout_warning_then_fallback_witness :
    stream_openai defaultConfig [{ role := "user", content := "hi" }]
        (ProviderAttempt.rateLimited []) 0 [LoopEvent.arrive 1, LoopEvent.tick 30]
      = StreamResult.ok (RATE_LIMIT_WARNING :: stream_fallback)
    ∧ stream_openai defaultConfig [{ role := "user", content := "hi" }]
        (ProviderAttempt.timedOut []) 0 [LoopEvent.arrive 1, LoopEvent.tick 30]
      = StreamResult.ok (TIMEOUT_WARNING :: stream_fallback) :=
  C2_rate_limit_timeout_warning_then_fallback defaultConfig
    [{ role := "user", content := "hi" }] 0 [LoopEvent.arrive 1, LoopEvent.tick 30]
    ⟨[LCMessage.human "hi"], rfl⟩ (by decide) (by decide)

/-- C3: for every valid message sequence, when the provider attempt
terminates as AuthError, `stream_openai` first flushes the remaining
buffered text (the yielded chunks concatenate exactly to the delivered
tokens) and then raises `PermissionError`; no warning and no fallback
content is emitted. -/
theorem C3_auth_error_permission_denied (cfg : StreamConfig) (messages : List ChatMessage)
    (tokens : List String) (startTime : Nat) (events : List LoopEvent)
    (hvalid : ∃ l, lc_messages messages = Except.ok l)
    (hdrain : drains cfg messages (ProviderAttempt.authError tokens) startTime events) :
    ∃ chunks, stream_openai cfg messages (ProviderAttempt.authError tokens) startTime events
        = StreamResult.permissionDenied chunks ∧ pyJoin chunks = pyJoin tokens := by
  obtain ⟨l, hl⟩ := hvalid
  have hrc : run_call messages (ProviderAttempt.authError tokens)
      = { queued := tokens, marker := some ErrorMarker.permissionError } := by
    simp [run_call, hl]
  refine ⟨(runLoop cfg (initState tokens startTime) events).snd
      ++ leftoverFlush (runLoop cfg (initState tokens startTime) events).fst, ?_, ?_⟩
  · simp [stream_openai, streamChunks, hrc]
  · have hdrain2 : (runLoop cfg (initState tokens startTime) events).fst.queue = [] := by
      unfold drains at hdrain
      rw [hrc] at hdrain
      exact hdrain
    have hcons := runLoop_conservation cfg events (initState tokens startTime)
    rw [hdrain2] at hcons
    rw [pyJoin_append, pyJoin_leftoverFlush]
    simpa [initState, pyJoin, String.empty_append, String.append_empty] using hcons

/-- C3 witness: a concrete run where two tokens were delivered before the
authentication failure; they are flushed, then the run fails. -/
theorem C3_auth_error_permission_denied_witness :
    ∃ chunks, stream_openai defaultConfig [{ role := "user", content := "hi" }]
        (ProviderAttempt.authError ["abc", "def"]) 0
        [LoopEvent.arrive 1, LoopEvent.arrive 2, LoopEvent.tick 100]
      = StreamResult.permissionDenied chunks ∧ pyJoin chunks = pyJoin ["abc", "def"] :=
  C3_auth_error_permission_denied defaultConfig [{ role := "user", content := "hi" }]
    ["abc", "def"] 0 [LoopEvent.arrive 1, LoopEvent.arrive 2, LoopEvent.tick 100]
    ⟨[LCMessage.human "hi"], rfl⟩ (by decide)

/-- C4 counterexample: with a message of role moderator, `stream_openai`
does NOT fail with an unsupported-role error and does NOT yield zero
chunks: the `ValueError` raised by `_lc_messages` inside the `try:` block
of `run_call` is caught by the generic `except Exception` branch, so the
run completes normally, yielding the unexpected-error warning chunk
followed by the whole fallback replay. -/
theorem C4_counterexample :
    stream_openai defaultConfig [{ role := "moderator", content := "hi" }]
        (ProviderAttempt.success ["tok"]) 0 [LoopEvent.arrive 1, LoopEvent.tick 100]
      = StreamResult.ok (UNEXPECTED_WARNING :: stream_fallback)
    ∧ resultChunks (stream_openai defaultConfig [{ role := "moderator", content := "hi" }]
        (ProviderAttempt.success ["tok"]) 0 [LoopEvent.arrive 1, LoopEvent.tick 100]) ≠ [] := by
  have h1 : stream_openai defaultConfig [{ role := "moderator", content := "hi" }]
      (ProviderAttempt.success ["tok"]) 0 [LoopEvent.arrive 1, LoopEvent.tick 100]
      = StreamResult.ok (UNEXPECTED_WARNING :: stream_fallback) := by rfl
  refine ⟨h1, ?_⟩
  rw [h1]
  simp [resultChunks]

/-- C4 amended: for every message list containing a role outside
system/user/assistant (case-insensitively), the unsupported-role error is
caught inside the provider-call task and treated as an unexpected error:
over every draining schedule, `stream_openai` yields exactly the
unexpected-error warning chunk followed by the fallback replay, raises
nothing, and emits no provider tokens. -/
theorem C4_amended_unsupported_role_falls_back (cfg : StreamConfig)
    (messages : List ChatMessage) (attempt : ProviderAttempt) (startTime : Nat)
    (events : List LoopEvent)
    (hbad : ∃ e, lc_messages messages = Except.error e)
    (hdrain : drains cfg messages attempt startTime events) :
    stream_openai cfg messages attempt startTime events
      = StreamResult.ok (UNEXPECTED_WARNING :: stream_fallback) := by
  obtain ⟨e, he⟩ := hbad
  have hrc : run_call messages attempt
      = { queued := [UNEXPECTED_WARNING], marker := some ErrorMarker.otherError } := by
    cases attempt <;> simp [run_call, he]
  have hdrain2 : (runLoop cfg (initState [UNEXPECTED_WARNING] startTime) events).fst.queue
      = [] := by
    unfold drains at hdrain
    rw [hrc] at hdrain
    exact hdrain
  have hchunks := chunks_single cfg events (initState [UNEXPECTED_WARNING] startTime)
    UNEXPECTED_WARNING (by simp [initState]) hdrain2
  simp [stream_openai, streamChunks, hrc, hchunks]

/-- C4 amended witness: role Moderator (upper case initial, matched
case-insensitively) with a timeout-only schedule. -/
theorem C4_amended_unsupported_role_falls_back_witness :
    stream_openai defaultConfig [{ role := "Moderator", content := "hi" }]
        (ProviderAttempt.success ["tok"]) 0 [LoopEvent.arrive 1, LoopEvent.tick 100]
      = StreamResult.ok (UNEXPECTED_WARNING :: stream_fallback) :=
  C4_amended_unsupported_role_falls_back defaultConfig
    [{ role := "Moderator", content := "hi" }] (ProviderAttempt.success ["tok"]) 0
    [LoopEvent.arrive 1, LoopEvent.tick 100] ⟨"Unsupported role: moderator", rfl⟩ (by decide)

/-- C5: the retry decorator on `stream_openai` allows up to 3 attempts at
establishing the call with exponential backoff 1s, 2s, then 4s capped at
8s; with failures injected on the first 2 attempts and success on the 3rd
the call still succeeds, having slept exactly 1s and then 2s between
attempts, and with all attempts failing it gives up after the same two
sleeps and the failure is treated as UnexpectedError. -/
theorem C5_retry_policy :
    (∀ attemptOk : Nat → Bool, attemptOk 1 = false → attemptOk 2 = false →
        attemptOk 3 = true →
        establish attemptOk = (EstablishResult.established, [1, 2]))
    ∧ (∀ attemptOk : Nat → Bool, attemptOk 1 = false → attemptOk 2 = false →
        attemptOk 3 = false →
        establish attemptOk = (EstablishResult.gaveUpUnexpectedError, [1, 2]))
    ∧ wait_exponential 1 1 8 1 = 1 ∧ wait_exponential 1 1 8 2 = 2
    ∧ wait_exponential 1 1 8 3 = 4 ∧ wait_exponential 1 1 8 4 = 8
    ∧ (∀ n : Nat, wait_exponential 1 1 8 n ≤ 8) := by
  refine ⟨?_, ?_, by decide, by decide, by decide, by decide, ?_⟩
  · intro f h1 h2 h3
    simp [establish, retryRun, h1, h2, h3, wait_exponential]
  · intro f h1 h2 h3
    simp [establish, retryRun, h1, h2, h3, wait_exponential]
  · intro n
    unfold wait_exponential
    exact Nat.max_le.mpr ⟨by norm_num, Nat.min_le_right _ _⟩

/-- C5 witness: establishment succeeding only from attempt 3, and
establishment that never succeeds. -/
theorem C5_retry_policy_witness :
    establish (fun n => decide (3 ≤ n)) = (EstablishResult.established, [1, 2])
    ∧ establish (fun _ => false) = (EstablishResult.gaveUpUnexpectedError, [1, 2]) :=
  ⟨C5_retry_policy.1 (fun n => decide (3 ≤ n)) rfl rfl rfl,
   C5_retry_policy.2.1 (fun _ => false) rfl rfl rfl⟩

/-- C6: the coalescing buffer is flushed as one chunk as soon as a token
arrival makes its length reach the configured threshold (so after every
processed event the buffered length is strictly below the threshold), and
a poll timeout flushes it exactly when the buffer is non-empty and at
least the configured flush interval has elapsed since the last flush. -/
theorem C6_buffer_flush_policy (cfg : StreamConfig) (hpos : 0 < cfg.bufferSize) :
    (∀ (st : LoopState) (t : String) (rest : List String) (now : Nat),
        st.queue = t :: rest → cfg.bufferSize ≤ bufferLen (st.buffer ++ [t]) →
        stepEvent cfg st (LoopEvent.arrive now)
          = ({ queue := rest, buffer := [], lastFlush := now }, [pyJoin (st.buffer ++ [t])]))
    ∧ (∀ (st : LoopState) (now : Nat),
        (stepEvent cfg st (LoopEvent.tick now)).snd
          = if st.buffer ≠ [] ∧ cfg.flushInterval ≤ now - st.lastFlush
            then [pyJoin st.buffer] else [])
    ∧ (∀ (queued : List String) (startTime : Nat) (events : List LoopEvent),
        bufferLen (runLoop cfg (initState queued startTime) events).fst.buffer
          < cfg.bufferSize) := by
  refine ⟨?_, ?_, ?_⟩
  · intro st t rest now hq hflush
    obtain ⟨q, b, lf⟩ := st
    simp only at hq
    subst hq
    simp only at hflush
    simp [stepEvent, hflush]
  · intro st now
    obtain ⟨q, b, lf⟩ := st
    by_cases hcond : b ≠ [] ∧ cfg.flushInterval ≤ now - lf
    · simp [stepEvent, hcond]
    · simp [stepEvent, hcond]
  · intro queued startTime events
    exact runLoop_buffer_lt cfg hpos events (initState queued startTime)
      (by simpa [initState, bufferLen] using hpos)

/-- C6 witness: with the default 48-character threshold, a 47-character
token is buffered, the next arrival flushes both as one chunk, and the
buffered length stays strictly below the threshold. -/
theorem C6_buffer_flush_policy_witness :
    stepEvent defaultConfig
        { queue := ["x"], buffer := ["01234567890123456789012345678901234567890123456"],
          lastFlush := 0 } (LoopEvent.arrive 7)
      = ({ queue := [], buffer := [], lastFlush := 7 },
         [pyJoin (["01234567890123456789012345678901234567890123456"] ++ ["x"])])
    ∧ bufferLen (runLoop defaultConfig (initState ["abc"] 0) [LoopEvent.arrive 1]).fst.buffer
        < defaultConfig.bufferSize :=
  ⟨(C6_buffer_flush_policy defaultConfig (by decide)).1
      { queue := ["x"], buffer := ["01234567890123456789012345678901234567890123456"],
        lastFlush := 0 } "x" [] 7 rfl (by decide),
   (C6_buffer_flush_policy defaultConfig (by decide)).2.2 ["abc"] 0 [LoopEvent.arrive 1]⟩

/-- C7 counterexample: the concatenation of the tokens `stream_fallback`
emits does not reconstruct `FALLBACK_TEXT` exactly: `str.split()`
collapses the newlines of the text to the single spaces re-inserted after
each word, and a trailing space is appended after the last word. -/
theorem C7_counterexample : pyJoin stream_fallback ≠ FALLBACK_TEXT := by decide

set_option maxRecDepth 4000 in
/-- C7 amended: run to completion uninterrupted, the fallback source
deterministically emits the fixed finite sequence of the 39 whitespace
words of `FALLBACK_TEXT`, each with one trailing space; their
concatenation reconstructs the whitespace-normalized fallback text (words
joined by single spaces, with one trailing space), not the fallback text
verbatim. -/
theorem C7_amended_fallback_replay :
    stream_fallback = (pySplit FALLBACK_TEXT).map (fun w => w ++ " ")
    ∧ pyJoin stream_fallback = joinWithSpaces (pySplit FALLBACK_TEXT) ++ " "
    ∧ stream_fallback.length = 39
    ∧ stream_fallback.all (fun w => w.data.getLast? == some ' ') = true :=
  ⟨rfl, by decide, by decide, by decide⟩

/-- C9 counterexample: when the provider emits an empty token, the
periodic flush emits an empty chunk: the Python guard `if token_buffer:`
tests list non-emptiness, and a buffer holding only the empty token is a
non-empty list whose joined text is empty. -/
theorem C9_counterexample :
    stream_openai defaultConfig [{ role := "user", content := "hi" }]
        (ProviderAttempt.success [""]) 0 [LoopEvent.arrive 1, LoopEvent.tick 100]
      = StreamResult.ok [""]
    ∧ "" ∈ resultChunks (stream_openai defaultConfig [{ role := "user", content := "hi" }]
        (ProviderAttempt.success [""]) 0 [LoopEvent.arrive 1, LoopEvent.tick 100]) := by
  have h1 : stream_openai defaultConfig [{ role := "user", content := "hi" }]
      (ProviderAttempt.success [""]) 0 [LoopEvent.arrive 1, LoopEvent.tick 100]
      = StreamResult.ok [""] := by rfl
  exact ⟨h1, by rw [h1]; simp [resultChunks]⟩

/-- C9 amended: every chunk emitted by `stream_openai` — size-triggered,
periodic, leftover, or fallback — is non-empty, provided every string the
provider call put on the queue is non-empty (the warnings always are; the
restriction excludes only empty provider tokens, for which the
counterexample shows an empty chunk escapes). -/
theorem C9_amended_chunks_nonempty (cfg : StreamConfig) (messages : List ChatMessage)
    (attempt : ProviderAttempt) (startTime : Nat) (events : List LoopEvent)
    (htok : ∀ t ∈ (run_call messages attempt).queued, t ≠ "") :
    ∀ c ∈ resultChunks (stream_openai cfg messages attempt startTime events), c ≠ "" := by
  intro c hc
  have hloop := runLoop_nonempty cfg events
    (initState (run_call messages attempt).queued startTime)
    (by simp [initState]) (by simpa [initState] using htok)
  obtain ⟨hchunks, hbuf⟩ := hloop
  have hleft : ∀ x ∈ leftoverFlush
      (runLoop cfg (initState (run_call messages attempt).queued startTime) events).fst,
      x ≠ "" := by
    intro x hx
    unfold leftoverFlush at hx
    by_cases hb : (runLoop cfg (initState (run_call messages attempt).queued startTime)
        events).fst.buffer ≠ []
    · rw [if_pos hb, List.mem_singleton] at hx
      rw [hx]
      exact pyJoin_ne_empty _ hb hbuf
    · rw [if_neg hb] at hx
      exact absurd hx (List.not_mem_nil x)
  have hstream : ∀ x ∈ streamChunks cfg messages attempt startTime events, x ≠ "" := by
    intro x hx
    unfold streamChunks at hx
    rcases List.mem_append.mp hx with hxm | hxm
    · exact hchunks x hxm
    · exact hleft x hxm
  have hfb : ∀ x ∈ stream_fallback, x ≠ "" := by decide
  unfold stream_openai at hc
  cases hm : (run_call messages attempt).marker with
  | none =>
    rw [hm] at hc
    simp only [resultChunks] at hc
    exact hstream c hc
  | some em =>
    cases em with
    | permissionError =>
      rw [hm] at hc
      simp only [resultChunks] at hc
      exact hstream c hc
    | otherError =>
      rw [hm] at hc
      simp only [resultChunks] at hc
      rcases List.mem_append.mp hc with hcm | hcm
      · exact hstream c hcm
      · exact hfb c hcm

/-- C9 amended witness: a one-token success run; the emitted chunk is the
token and is non-empty. -/
theorem C9_amended_chunks_nonempty_witness :
    "tok" ∈ resultChunks (stream_openai defaultConfig [{ role := "user", content := "hi" }]
        (ProviderAttempt.success ["tok"]) 0 [LoopEvent.arrive 1, LoopEvent.tick 100])
    ∧ ("tok" : String) ≠ "" :=
  ⟨by decide,
   C9_amended_chunks_nonempty defaultConfig [{ role := "user", content := "hi" }]
     (ProviderAttempt.success ["tok"]) 0 [LoopEvent.arrive 1, LoopEvent.tick 100]
     (by decide) "tok" (by decide)⟩

/-- C10: `validate_token` raises HTTP 401 exactly when the presented token
is not a configured valid token: with a non-empty `API_AUTH_TOKEN` that
means the token differs from it, and with `API_AUTH_TOKEN` unset or empty
the valid set is empty, every token is rejected, and `verify_header_auth`
rejects every request with a 401 (fail-closed). -/
theorem C10_auth_fail_closed (s : Settings) (token : String) (hdr : Option String) :
    (validate_token s token
        = Except.error { status_code := 401, detail := "Unauthorized: Invalid or missing token" }
      ↔ (s.API_AUTH_TOKEN = "" ∨ token ≠ s.API_AUTH_TOKEN))
    ∧ (validate_token s token = Except.ok ()
      ↔ (s.API_AUTH_TOKEN ≠ "" ∧ token = s.API_AUTH_TOKEN))
    ∧ (s.API_AUTH_TOKEN = "" →
        ∃ e, verify_header_auth s hdr = Except.error e ∧ e.status_code = 401) := by
  refine ⟨?_, ?_, ?_⟩
  · by_cases h1 : s.API_AUTH_TOKEN = ""
    · simp [validate_token, valid_tokens, h1]
    · by_cases h2 : token = s.API_AUTH_TOKEN
      · simp [validate_token, valid_tokens, h1, h2]
      · simp [validate_token, valid_tokens, h1, h2]
  · by_cases h1 : s.API_AUTH_TOKEN = ""
    · simp [validate_token, valid_tokens, h1]
    · by_cases h2 : token = s.API_AUTH_TOKEN
      · simp [validate_token, valid_tokens, h1, h2]
      · simp [validate_token, valid_tokens, h1, h2]
  · intro h1
    cases hdr with
    | none =>
      exact ⟨{ status_code := 401, detail := "Unauthorized: Missing Bearer token" }, rfl, rfl⟩
    | some h =>
      have hred : verify_header_auth s (some h)
          = if h = "" ∨ ¬ pyStartsWith h ("Bearer ") then
              Except.error { status_code := 401, detail := "Unauthorized: Missing Bearer token" }
            else
              match validate_token s (bearerToken h) with
              | Except.error e => Except.error e
              | Except.ok _ => Except.ok (bearerToken h) := rfl
      by_cases hb : h = "" ∨ ¬ pyStartsWith h ("Bearer ")
      · refine ⟨{ status_code := 401, detail := "Unauthorized: Missing Bearer token" }, ?_, rfl⟩
        rw [hred, if_pos hb]
      · have hv : validate_token s (bearerToken h)
            = Except.error { status_code := 401, detail := "Unauthorized: Invalid or missing token" } := by
          simp [validate_token, valid_tokens, h1]
        refine ⟨{ status_code := 401, detail := "Unauthorized: Invalid or missing token" }, ?_, rfl⟩
        rw [hred, if_neg hb, hv]

/-- C10 witness: with an empty configured token, both a direct validation
and a well-formed Bearer request are rejected with 401; with a configured
token, the matching token is not rejected. -/
theorem C10_auth_fail_closed_witness :
    validate_token { API_AUTH_TOKEN := "" } "x"
      = Except.error { status_code := 401, detail := "Unauthorized: Invalid or missing token" }
    ∧ (∃ e, verify_header_auth { API_AUTH_TOKEN := "" } (some "Bearer x") = Except.error e
        ∧ e.status_code = 401)
    ∧ validate_token { API_AUTH_TOKEN := "secret" } "secret" = Except.ok () :=
  ⟨(C10_auth_fail_closed { API_AUTH_TOKEN := "" } "x" (some "Bearer x")).1.mpr (Or.inl rfl),
   (C10_auth_fail_closed { API_AUTH_TOKEN := "" } "x" (some "Bearer x")).2.2 rfl,
   (C10_auth_fail_closed { API_AUTH_TOKEN := "secret" } "secret" none).2.1.mpr
     ⟨by decide, rfl⟩⟩

end Aquanex
